import Mathlib

/-!
Verification of the transaction envelope core from
`src/core/lib/models/src/tx/franklin_tx.rs`.

The file embeds the `FranklinTx` sum type, the `SignedFranklinTx`
envelope and every uniform projection of the source file.  The leaf
transaction types (`Transfer`, `Withdraw`, `Close`, `ChangePubKey`),
the `sha256` digest, the per-operation `CHUNKS` constants and the
serde wire machinery live outside the given source; they are modelled
from the specification where a claim needs them, each with a doc
comment saying so.
-/

/-- Ethereum-style account address; at this layer an opaque numeric id. -/
abbrev Address := Nat

/-- Per-account transaction counter. -/
abbrev Nonce := Nat

/-- Numeric token id (already resolved from any symbolic name). -/
abbrev TokenId := Nat

/-- Arbitrary-precision non-negative integer (`num::BigUint`). -/
abbrev BigUint := Nat

/-- Modelled from the spec: a fixed-width byte encoding of a numeric
field, used inside the canonical byte encodings of the leaf types
(the concrete per-variant encoding scheme is external to the source). -/
def encNat (n : Nat) : List Nat :=
  (List.range 8).map (fun i => n / 256 ^ i % 256)

/-- Modelled from the spec: `parity_crypto::digest::sha256` is an
external dependency; the spec requires only a fixed, deterministic
256-bit (32-byte) digest function of the input bytes.  Modelled as a
deterministic 32-byte fold of the input. -/
def sha256 (input : List Nat) : List Nat :=
  (List.range 32).map
    (fun i => input.foldl (fun acc b => (acc * 31 + b + i) % 256) (i + 1))

/-- Modelled from the spec: the Transfer leaf carries the owning
account, destination, token identifier, amount, fee and nonce. -/
structure Transfer where
  «from» : Address
  «to» : Address
  token : TokenId
  amount : BigUint
  fee : BigUint
  nonce : Nonce
deriving DecidableEq, Repr

/-- Modelled from the spec: the Withdraw leaf carries the owning
account, destination, token identifier, fee, the boolean fast flag
selecting a pricing tier, and the nonce. -/
structure Withdraw where
  «from» : Address
  «to» : Address
  token : TokenId
  fee : BigUint
  fast : Bool
  nonce : Nonce
deriving DecidableEq, Repr

/-- Modelled from the spec: the Close leaf carries no fee-relevant
fields beyond account and nonce. -/
structure Close where
  account : Address
  nonce : Nonce
deriving DecidableEq, Repr

/-- Modelled from the spec: the ChangePubKey leaf carries no
fee-relevant fields beyond account and nonce. -/
structure ChangePubKey where
  account : Address
  nonce : Nonce
deriving DecidableEq, Repr

/-- Modelled from the spec: the canonical byte encoding of a Transfer,
a deterministic serialization of its fields. -/
def Transfer.get_bytes (t : Transfer) : List Nat :=
  5 :: encNat t.«from» ++ encNat t.«to» ++ encNat t.token
    ++ encNat t.amount ++ encNat t.fee ++ encNat t.nonce

/-- Modelled from the spec: the canonical byte encoding of a Withdraw,
a deterministic serialization of its fields. -/
def Withdraw.get_bytes (w : Withdraw) : List Nat :=
  3 :: encNat w.«from» ++ encNat w.«to» ++ encNat w.token
    ++ encNat w.fee ++ [if w.fast then 1 else 0] ++ encNat w.nonce

/-- Modelled from the spec: the canonical byte encoding of a Close,
a deterministic serialization of its fields. -/
def Close.get_bytes (c : Close) : List Nat :=
  4 :: encNat c.account ++ encNat c.nonce

/-- Modelled from the spec: the canonical byte encoding of a
ChangePubKey, a deterministic serialization of its fields. -/
def ChangePubKey.get_bytes (p : ChangePubKey) : List Nat :=
  7 :: encNat p.account ++ encNat p.nonce

/-- Fee-market classification exposed by `get_fee_info`
(`TxFeeTypes` from the source's crate). -/
inductive TxFeeTypes where
  | Transfer
  | Withdraw
  | FastWithdraw
deriving DecidableEq, Repr

/-- Token reference; the source only ever builds the resolved-id case
`TokenLike::Id`. -/
inductive TokenLike where
  | Id (id : TokenId)
deriving DecidableEq, Repr

/-- 32-byte content hash (`TxHash { data: [u8; 32] }`). -/
structure TxHash where
  data : List Nat
deriving DecidableEq, Repr

/-- Modelled from the spec: the signature value inside the off-chain
authorization metadata is opaque to this core. -/
structure TxEthSignature where
  sig : List Nat
deriving DecidableEq, Repr

/-- `EthSignData`: off-chain signature plus the exact signed message. -/
structure EthSignData where
  signature : TxEthSignature
  message : String
deriving DecidableEq, Repr

/-- The transaction variant union `FranklinTx`. -/
inductive FranklinTx where
  | Transfer (t : Transfer)
  | Withdraw (w : Withdraw)
  | Close (c : Close)
  | ChangePubKey (p : ChangePubKey)
deriving DecidableEq, Repr

/-- The signed envelope `SignedFranklinTx`. -/
structure SignedFranklinTx where
  tx : FranklinTx
  eth_sign_data : Option EthSignData
deriving DecidableEq, Repr

/-- `impl From<FranklinTx> for SignedFranklinTx`. -/
def SignedFranklinTx.fromTx (tx : FranklinTx) : SignedFranklinTx :=
  { tx := tx, eth_sign_data := none }

/-- `impl Deref for SignedFranklinTx`: read-through access to the
inner variant. -/
def SignedFranklinTx.deref (s : SignedFranklinTx) : FranklinTx :=
  s.tx

/-- `FranklinTx::get_bytes`. -/
def FranklinTx.get_bytes : FranklinTx → List Nat
  | FranklinTx.Transfer t => t.get_bytes
  | FranklinTx.Withdraw w => w.get_bytes
  | FranklinTx.Close c => c.get_bytes
  | FranklinTx.ChangePubKey p => p.get_bytes

/-- `FranklinTx::hash`: the variant's bytes, then `sha256`, then
`copy_from_slice` into a 32-byte array.  `copy_from_slice` panics when
the digest length differs from 32; the panic is modelled as `none`. -/
def FranklinTx.hash (tx : FranklinTx) : Option TxHash :=
  let bytes :=
    match tx with
    | FranklinTx.Transfer t => t.get_bytes
    | FranklinTx.Withdraw w => w.get_bytes
    | FranklinTx.Close c => c.get_bytes
    | FranklinTx.ChangePubKey p => p.get_bytes
  let h := sha256 bytes
  if h.length = 32 then some { data := h } else none

/-- `FranklinTx::account`. -/
def FranklinTx.account : FranklinTx → Address
  | FranklinTx.Transfer t => t.«from»
  | FranklinTx.Withdraw w => w.«from»
  | FranklinTx.Close c => c.account
  | FranklinTx.ChangePubKey p => p.account

/-- `FranklinTx::nonce`. -/
def FranklinTx.nonce : FranklinTx → Nonce
  | FranklinTx.Transfer t => t.nonce
  | FranklinTx.Withdraw w => w.nonce
  | FranklinTx.Close c => c.nonce
  | FranklinTx.ChangePubKey p => p.nonce

/-- Modelled from the spec: `TransferOp::CHUNKS`, a fixed per-kind
batch-capacity constant defined outside the given source. -/
def TransferOp.CHUNKS : Nat := 2

/-- Modelled from the spec: `WithdrawOp::CHUNKS`, a fixed per-kind
batch-capacity constant defined outside the given source. -/
def WithdrawOp.CHUNKS : Nat := 6

/-- Modelled from the spec: `CloseOp::CHUNKS`, a fixed per-kind
batch-capacity constant defined outside the given source. -/
def CloseOp.CHUNKS : Nat := 1

/-- Modelled from the spec: `ChangePubKeyOp::CHUNKS`, a fixed per-kind
batch-capacity constant defined outside the given source. -/
def ChangePubKeyOp.CHUNKS : Nat := 6

/-- `FranklinTx::min_chunks`. -/
def FranklinTx.min_chunks : FranklinTx → Nat
  | FranklinTx.Transfer _ => TransferOp.CHUNKS
  | FranklinTx.Withdraw _ => WithdrawOp.CHUNKS
  | FranklinTx.Close _ => CloseOp.CHUNKS
  | FranklinTx.ChangePubKey _ => ChangePubKeyOp.CHUNKS

/-- `FranklinTx::is_withdraw`. -/
def FranklinTx.is_withdraw : FranklinTx → Bool
  | FranklinTx.Withdraw _ => true
  | _ => false

/-- `FranklinTx::is_close`. -/
def FranklinTx.is_close : FranklinTx → Bool
  | FranklinTx.Close _ => true
  | _ => false

/-- The fee-info 4-tuple returned by `get_fee_info`. -/
abbrev FeeInfo := TxFeeTypes × TokenLike × Address × BigUint

/-- `FranklinTx::get_fee_info`. -/
def FranklinTx.get_fee_info : FranklinTx → Option FeeInfo
  | FranklinTx.Withdraw withdraw =>
      let fee_type :=
        if withdraw.fast then TxFeeTypes.FastWithdraw else TxFeeTypes.Withdraw
      some (fee_type, TokenLike.Id withdraw.token, withdraw.«to», withdraw.fee)
  | FranklinTx.Transfer transfer =>
      some (TxFeeTypes.Transfer, TokenLike.Id transfer.token,
        transfer.«to», transfer.fee)
  | _ => none

/-- `FranklinTx::get_fee_info` with the receiver threaded through
explicitly: the Rust method borrows `&self` immutably, so the
state-passing embedding returns the receiver alongside the result. -/
def FranklinTx.get_fee_info_st : FranklinTx → Option FeeInfo × FranklinTx
  | FranklinTx.Withdraw withdraw =>
      let fee_type :=
        if withdraw.fast then TxFeeTypes.FastWithdraw else TxFeeTypes.Withdraw
      (some (fee_type, TokenLike.Id withdraw.token, withdraw.«to», withdraw.fee),
        FranklinTx.Withdraw withdraw)
  | FranklinTx.Transfer transfer =>
      (some (TxFeeTypes.Transfer, TokenLike.Id transfer.token,
        transfer.«to», transfer.fee), FranklinTx.Transfer transfer)
  | tx => (none, tx)

/-- Modelled from the spec: the payload of the tagged wire
representation, the variant's own fields. -/
inductive TxPayload where
  | transferP (t : Transfer)
  | withdrawP (w : Withdraw)
  | closeP (c : Close)
  | changePubKeyP (p : ChangePubKey)
deriving DecidableEq, Repr

/-- Modelled from the spec: the tagged wire representation produced by
the derived serde encoding with `#[serde(tag = "type")]`: a structure
carrying a discriminant field naming the kind alongside the variant's
own fields. -/
structure WireTx where
  type : String
  payload : TxPayload
deriving DecidableEq, Repr

/-- Modelled from the spec: serialization of a variant to the tagged
wire representation. -/
def FranklinTx.toWire : FranklinTx → WireTx
  | FranklinTx.Transfer t =>
      { type := "Transfer", payload := TxPayload.transferP t }
  | FranklinTx.Withdraw w =>
      { type := "Withdraw", payload := TxPayload.withdrawP w }
  | FranklinTx.Close c =>
      { type := "Close", payload := TxPayload.closeP c }
  | FranklinTx.ChangePubKey p =>
      { type := "ChangePubKey", payload := TxPayload.changePubKeyP p }

/-- Modelled from the spec: deserialization from the tagged wire
representation; the discriminant must name the kind of the carried
fields, otherwise decoding fails. -/
def FranklinTx.fromWire (w : WireTx) : Option FranklinTx :=
  match w.payload with
  | TxPayload.transferP t =>
      if w.type = "Transfer" then some (FranklinTx.Transfer t) else none
  | TxPayload.withdrawP wd =>
      if w.type = "Withdraw" then some (FranklinTx.Withdraw wd) else none
  | TxPayload.closeP c =>
      if w.type = "Close" then some (FranklinTx.Close c) else none
  | TxPayload.changePubKeyP p =>
      if w.type = "ChangePubKey" then some (FranklinTx.ChangePubKey p) else none

/-- Modelled from the spec: the wire representation of the envelope
carries the tagged variant alongside the optional signature
metadata. -/
structure WireSignedTx where
  tx : WireTx
  eth_sign_data : Option EthSignData
deriving DecidableEq, Repr

/-- Modelled from the spec: serialization of the envelope. -/
def SignedFranklinTx.toWire (s : SignedFranklinTx) : WireSignedTx :=
  { tx := s.tx.toWire, eth_sign_data := s.eth_sign_data }

/-- Modelled from the spec: deserialization of the envelope. -/
def SignedFranklinTx.fromWire (w : WireSignedTx) : Option SignedFranklinTx :=
  (FranklinTx.fromWire w.tx).map
    (fun tx => { tx := tx, eth_sign_data := w.eth_sign_data })

/-- Concrete transfer used to instantiate witness statements
(Scenario A of the spec). -/
def exTransfer : Transfer :=
  { «from» := 1, «to» := 2, token := 5, amount := 1000, fee := 10, nonce := 3 }

/-- The transfer variant built from `exTransfer`. -/
def exTx : FranklinTx := FranklinTx.Transfer exTransfer

/-- A second, separately-written transfer variant with the same field
values as `exTx`, hence the same canonical byte encoding. -/
def exTxB : FranklinTx := FranklinTx.Transfer
  { «from» := 1, «to» := 2, token := 5, amount := 1000, fee := 10, nonce := 3 }

/-- Envelope around `exTx` with no signature metadata. -/
def exSigned1 : SignedFranklinTx := { tx := exTx, eth_sign_data := none }

/-- Envelope around `exTx` with signature metadata present. -/
def exSigned2 : SignedFranklinTx :=
  { tx := exTx,
    eth_sign_data :=
      some { signature := { sig := [1, 2, 3] }, message := "auth message" } }

/-- The digest function always yields the full 32 bytes. -/
theorem sha256_length (input : List Nat) : (sha256 input).length = 32 := by
  simp [sha256]

/- Theorems for the claims. -/

/-- C1: for every transaction variant, `get_fee_info` returns: for
Withdraw, `some` with fee type FastWithdraw when the fast flag is true
and Withdraw when it is false, with the withdraw's token id,
destination and fee; for Transfer, `some` with fee type Transfer and
the transfer's token id, destination and fee; for Close and
ChangePubKey, `none`. -/
theorem get_fee_info_classification :
    ∀ (w : Withdraw) (t : Transfer) (c : Close) (p : ChangePubKey),
      (FranklinTx.Withdraw w).get_fee_info =
        some ((if w.fast then TxFeeTypes.FastWithdraw else TxFeeTypes.Withdraw),
          TokenLike.Id w.token, w.«to», w.fee) ∧
      (FranklinTx.Transfer t).get_fee_info =
        some (TxFeeTypes.Transfer, TokenLike.Id t.token, t.«to», t.fee) ∧
      (FranklinTx.Close c).get_fee_info = none ∧
      (FranklinTx.ChangePubKey p).get_fee_info = none := by
  intro w t c p
  refine ⟨?_, rfl, rfl, rfl⟩
  by_cases hf : w.fast <;> simp [FranklinTx.get_fee_info, hf]

/-- C3: `is_withdraw` is true iff the variant is Withdraw, `is_close`
is true iff the variant is Close, and the two predicates are never
both true. -/
theorem is_withdraw_is_close_exclusive :
    ∀ tx : FranklinTx,
      (tx.is_withdraw = true ↔ ∃ w, tx = FranklinTx.Withdraw w) ∧
      (tx.is_close = true ↔ ∃ c, tx = FranklinTx.Close c) ∧
      ¬(tx.is_withdraw = true ∧ tx.is_close = true) := by
  intro tx
  cases tx <;>
    simp [FranklinTx.is_withdraw, FranklinTx.is_close]

/-- C2: for every variant, `hash` is the full 32-byte digest of the
variant's canonical byte encoding `get_bytes`, copied verbatim with no
truncation; consequently any two variants with equal byte encodings
have bit-identical hashes. -/
theorem hash_is_full_digest_of_get_bytes :
    (∀ tx : FranklinTx, tx.hash = some { data := sha256 tx.get_bytes }) ∧
    ∀ t1 t2 : FranklinTx, t1.get_bytes = t2.get_bytes → t1.hash = t2.hash := by
  have hmain : ∀ tx : FranklinTx,
      tx.hash = some { data := sha256 tx.get_bytes } := by
    intro tx
    cases tx <;> simp [FranklinTx.hash, FranklinTx.get_bytes, sha256_length]
  refine ⟨hmain, ?_⟩
  intro t1 t2 h
  rw [hmain t1, hmain t2, h]

/-- Witness for C2 at the concrete transfers `exTx` and `exTxB`, which
have equal byte encodings. -/
theorem hash_is_full_digest_of_get_bytes_witness :
    exTx.hash = some { data := sha256 exTx.get_bytes } ∧
    exTx.hash = exTxB.hash :=
  ⟨hash_is_full_digest_of_get_bytes.1 exTx,
   hash_is_full_digest_of_get_bytes.2 exTx exTxB rfl⟩

/-- C4: `hash` is deterministic: two invocations on the same
unmutated instance return identical values. -/
theorem hash_deterministic :
    ∀ t1 t2 : FranklinTx, t1 = t2 → t1.hash = t2.hash := by
  intro t1 t2 h
  rw [h]

/-- Witness for C4 at the concrete transfer `exTx`. -/
theorem hash_deterministic_witness : exTx.hash = exTx.hash :=
  hash_deterministic exTx exTx rfl

/-- C5: `get_fee_info` is total and leaves the receiver unchanged:
the state-passing embedding of the `&self` method returns the variant
intact alongside the same result as the pure projection, on every
variant. -/
theorem get_fee_info_total_and_frame :
    ∀ tx : FranklinTx,
      (tx.get_fee_info_st).2 = tx ∧
      (tx.get_fee_info_st).1 = tx.get_fee_info := by
  intro tx
  cases tx <;>
    simp [FranklinTx.get_fee_info_st, FranklinTx.get_fee_info]

/-- C6: `min_chunks` is a fixed per-kind constant: each kind maps to
its operation's CHUNKS constant regardless of field values, so any two
variants of the same kind agree. -/
theorem min_chunks_per_kind_constant :
    ∀ (t t' : Transfer) (w w' : Withdraw) (c c' : Close)
      (p p' : ChangePubKey),
      (FranklinTx.Transfer t).min_chunks = TransferOp.CHUNKS ∧
      (FranklinTx.Withdraw w).min_chunks = WithdrawOp.CHUNKS ∧
      (FranklinTx.Close c).min_chunks = CloseOp.CHUNKS ∧
      (FranklinTx.ChangePubKey p).min_chunks = ChangePubKeyOp.CHUNKS ∧
      (FranklinTx.Transfer t).min_chunks =
        (FranklinTx.Transfer t').min_chunks ∧
      (FranklinTx.Withdraw w).min_chunks =
        (FranklinTx.Withdraw w').min_chunks ∧
      (FranklinTx.Close c).min_chunks = (FranklinTx.Close c').min_chunks ∧
      (FranklinTx.ChangePubKey p).min_chunks =
        (FranklinTx.ChangePubKey p').min_chunks := by
  intro t t' w w' c c' p p'
  exact ⟨rfl, rfl, rfl, rfl, rfl, rfl, rfl, rfl⟩

/-- C7: building an envelope from a bare variant keeps the variant
exactly and carries no signature metadata. -/
theorem fromTx_inner_and_no_signature :
    ∀ tx : FranklinTx,
      (SignedFranklinTx.fromTx tx).tx = tx ∧
      (SignedFranklinTx.fromTx tx).eth_sign_data = none := by
  intro tx
  exact ⟨rfl, rfl⟩

/-- C8: every uniform projection is defined on every variant kind; in
particular the 32-byte copy inside `hash` never fails. -/
theorem projections_exhaustive :
    ∀ tx : FranklinTx,
      (tx.hash).isSome = true ∧
      (∃ a, tx.account = a) ∧
      (∃ n, tx.nonce = n) ∧
      (∃ m, tx.min_chunks = m) ∧
      (∃ o, tx.get_fee_info = o) ∧
      (∃ b, tx.is_withdraw = b) ∧
      (∃ b, tx.is_close = b) := by
  intro tx
  refine ⟨?_, ⟨_, rfl⟩, ⟨_, rfl⟩, ⟨_, rfl⟩, ⟨_, rfl⟩, ⟨_, rfl⟩, ⟨_, rfl⟩⟩
  cases tx <;> simp [FranklinTx.hash, sha256_length]

/-- C9: encoding a signed envelope to the tagged wire representation
and decoding it reconstructs the identical instance: same variant
kind, same field values, same signature metadata. -/
theorem signed_wire_round_trip :
    ∀ s : SignedFranklinTx, SignedFranklinTx.fromWire s.toWire = some s := by
  intro s
  cases s with
  | mk tx sig =>
      cases tx <;>
        simp [SignedFranklinTx.toWire, SignedFranklinTx.fromWire,
          FranklinTx.toWire, FranklinTx.fromWire]

/-- C10: signature metadata does not influence any read-through
projection: envelopes holding the same inner variant agree on every
projection reached through the dereference to the variant. -/
theorem envelope_projections_ignore_signature :
    ∀ s1 s2 : SignedFranklinTx, s1.tx = s2.tx →
      s1.deref.hash = s2.deref.hash ∧
      s1.deref.account = s2.deref.account ∧
      s1.deref.nonce = s2.deref.nonce ∧
      s1.deref.get_bytes = s2.deref.get_bytes ∧
      s1.deref.min_chunks = s2.deref.min_chunks ∧
      s1.deref.is_withdraw = s2.deref.is_withdraw ∧
      s1.deref.is_close = s2.deref.is_close ∧
      s1.deref.get_fee_info = s2.deref.get_fee_info := by
  intro s1 s2 h
  simp [SignedFranklinTx.deref, h]

/-- Witness for C10 at two concrete envelopes with the same inner
transfer but absent versus present signature metadata. -/
theorem envelope_projections_ignore_signature_witness :
    exSigned1.deref.hash = exSigned2.deref.hash ∧
    exSigned1.deref.account = exSigned2.deref.account ∧
    exSigned1.deref.nonce = exSigned2.deref.nonce ∧
    exSigned1.deref.get_bytes = exSigned2.deref.get_bytes ∧
    exSigned1.deref.min_chunks = exSigned2.deref.min_chunks ∧
    exSigned1.deref.is_withdraw = exSigned2.deref.is_withdraw ∧
    exSigned1.deref.is_close = exSigned2.deref.is_close ∧
    exSigned1.deref.get_fee_info = exSigned2.deref.get_fee_info :=
  envelope_projections_ignore_signature exSigned1 exSigned2 rfl
